import Mathlib

/-!
Shallow embedding of an Instagram client's session and event-ingestion layer:
`Util.isMessageValid` (src/index.js), the combined `Client`
(src/unnamed/part_001: dedup window, pre-ready buffer and replay, message
pipeline, message-request approval, login fallback) and the insta.js helpers
(src/unnamed/part_000: `_patchOrCreateUser`, `fetchChat`).

JS Maps and Sets are modelled as insertion-ordered association lists and
lists; JS numbers (timestamps) as rationals; fallible collaborator calls
(thread fetch, event listeners, the remote approve and decline endpoints)
as explicit oracles; a thrown JS exception is an explicit error value
threaded next to the state, so that a `try`/`catch` block is a `match`
that drops the error component.
-/

namespace Insta

/-- Lookup in an insertion-ordered association list (JS `Map.get`). -/
def lookupA {α : Type} : List (String × α) → String → Option α
  | [], _ => none
  | (k, v) :: rest, key => if k = key then some v else lookupA rest key

/-- JS `Map.set`: update the existing entry in place, otherwise append
(insertion order is preserved, keys stay unique). -/
def setA {α : Type} : List (String × α) → String → α → List (String × α)
  | [], key, v => [(key, v)]
  | (k, w) :: rest, key, v =>
    if k = key then (k, v) :: rest else (k, w) :: setA rest key v

/-- JS `Map.delete` of the (unique) entry with the given key. -/
def eraseA {α : Type} : List (String × α) → String → List (String × α)
  | [], _ => []
  | (k, w) :: rest, key => if k = key then rest else (k, w) :: eraseA rest key

/-- JS falsiness of an optional string field (undefined, null or the empty
string are falsy). -/
def strFalsy : Option String → Bool
  | none => true
  | some s => s.isEmpty

/-- JS `a || b` on two optional string fields: take `a` unless it is falsy. -/
def orFalsy (a b : Option String) : Option String :=
  if strFalsy a then b else a

/-- `Util.isMessageValid` (src/index.js lines 150-154): a timestamp above
`10^12` is divided by 1000 (the source comment calls this the
microsecond case); the result plus a 10000000 ms grace window must exceed
the current time. -/
def isMessageValid (now timestamp : ℚ) : Bool :=
  let timestampMs := if timestamp > 10 ^ 12 then timestamp / 1000 else timestamp
  decide (timestampMs + 10000000 > now)

/-- `Client.isNewMessageById` (src/unnamed/part_001 lines 369-385): the
deduplication window. A falsy id is reported new without insertion; a seen id
is reported duplicate without touching the window; a new id is appended and,
if the window now exceeds `maxIds`, the single oldest entry is evicted. -/
def isNewMessageById (maxIds : Nat) (processed : List String)
    (messageId : Option String) : Bool × List String :=
  if strFalsy messageId then (true, processed)
  else
    let id := messageId.getD ""
    if id ∈ processed then (false, processed)
    else
      let p := processed ++ [id]
      if maxIds < p.length then (true, p.drop 1) else (true, p)

/-- Raw message payload fields used by the pipeline (`item_id`, `user_id`,
`thread_id`, `timestamp`); absence models a missing JS field. -/
structure MsgData where
  item_id : Option String
  user_id : Option String
  thread_id : Option String
  timestamp : ℚ
deriving DecidableEq

/-- Event envelope handed to `handleMessageWrapper`: the optional `message`
payload and the optional `thread.thread_id` of the event context. -/
structure EventData where
  message : Option MsgData
  threadId : Option String
deriving DecidableEq

/-- Raw thread record returned by the collaborator (thread fetch or the inbox
pre-population feeds): its `thread_id` and its pending flag. -/
structure ChatData where
  thread_id : String
  pending : Bool
deriving DecidableEq

/-- Modelled from the spec: the `Chat` entity (class file not under src/) —
a stable id, the pending flag taken from the thread record, and a nested
insertion-ordered message cache. -/
structure MsgObj where
  id : String
  chatId : String
  timestamp : ℚ
deriving DecidableEq

structure Chat where
  id : String
  pending : Bool
  messages : List (String × MsgObj)
deriving DecidableEq

/-- Modelled from the spec: the `Message` entity (class file not under src/) —
built from a thread id and a raw payload, keeping the payload's timestamp. -/
def mkMessage (chatId : String) (m : MsgData) : MsgObj :=
  { id := m.item_id.getD "", chatId := chatId, timestamp := m.timestamp }

/-- Modelled from the spec: `Message._patch` (class file not under src/) —
fields present in the payload overwrite, absent fields are preserved. -/
def patchMsg (msg : MsgObj) (m : MsgData) : MsgObj :=
  { msg with timestamp := m.timestamp }

/-- Modelled from the spec: the `Chat` constructor (class file not under
src/) — keyed by the given id, pending flag from the thread record, empty
nested message cache. -/
def mkChat (chatId : String) (cd : ChatData) : Chat :=
  { id := chatId, pending := cd.pending, messages := [] }

/-- FBNS push payload: category tag and source user id. -/
structure FbnsData where
  pushCategory : String
  sourceUserId : String
deriving DecidableEq

/-- Application events emitted by the client, plus a marker for a call to the
`parseInboxUpdates` placeholder (the source only logs there). -/
inductive Action where
  | rawRealtime (topicId payload : String)
  | parseInbox (payload : String)
  | rawFbns (category uid : String)
  | newFollower (uid : String)
  | followRequest (uid : String)
  | pendingRequestNotification
  | messageCreate (messageId chatId : String)
  | messageRequestApproved (chatId : String)
  | messageRequestDeclined (chatId : String)
  | disconnected
  | connected
deriving DecidableEq

/-- A buffered event as pushed onto `eventsToReplay`
(src/unnamed/part_001 lines 241 and 307). -/
inductive BufEvent where
  | realtime (topicId payload : String)
  | fbns (d : FbnsData)
deriving DecidableEq

/-- Client state: the `ready` flag, the replay buffer, the dedup window, the
chat, pending-chat and global message caches, the trace of emitted events,
and `options.maxProcessedMessageIds`. The global message cache stores, per
message id, the id of the owning chat (messages are shared by reference in
the source, so a global entry is a pointer into a chat's nested cache). -/
structure ClientState where
  ready : Bool
  eventsToReplay : List BufEvent
  processedMessageIds : List String
  chats : List (String × Chat)
  pendingChats : List (String × Chat)
  messages : List (String × String)
  emitted : List Action
  maxIds : Nat
deriving DecidableEq

/-- Constructor state (src/unnamed/part_001 lines 31-103). -/
def initState (maxIds : Nat) : ClientState :=
  { ready := false, eventsToReplay := [], processedMessageIds := [],
    chats := [], pendingChats := [], messages := [], emitted := [],
    maxIds := maxIds }

/-- The slice of client state that `processMessage` reads and writes: the
chat cache, the global message cache, and the emitted-event trace. -/
structure PipeState where
  chats : List (String × Chat)
  messages : List (String × String)
  emitted : List Action
deriving DecidableEq

/-- `this.emit(...)` on the full state: record the event on the trace. -/
def emitA (st : ClientState) (a : Action) : ClientState :=
  { st with emitted := st.emitted ++ [a] }

/-- `this.emit(...)` on the pipeline slice. -/
def emitP (p : PipeState) (a : Action) : PipeState :=
  { p with emitted := p.emitted ++ [a] }

/-- The pipeline slice of a client state. -/
def ClientState.pipe (st : ClientState) : PipeState :=
  { chats := st.chats, messages := st.messages, emitted := st.emitted }

/-- Write a pipeline slice back into a client state. -/
def ClientState.withPipe (st : ClientState) (p : PipeState) : ClientState :=
  { st with chats := p.chats, messages := p.messages, emitted := p.emitted }

/-- `fetchChat` (src/unnamed/part_000 lines 312-319, referenced from
processMessage): on cache miss, fetch the thread from the collaborator
(which may throw), build a Chat keyed by the fetched record's `thread_id`,
cache it, and return the cache entry under the requested id (which can be
absent when the fetched record carries a different id). -/
def fetchChatM (fetch : String → Except String ChatData) (p : PipeState)
    (chatID : String) : PipeState × Except String (Option Chat) :=
  if (lookupA p.chats chatID).isSome then (p, Except.ok (lookupA p.chats chatID))
  else
    match fetch chatID with
    | Except.error e => (p, Except.error e)
    | Except.ok cd =>
      let c := mkChat cd.thread_id cd
      let p' := { p with chats := setA p.chats cd.thread_id c }
      (p', Except.ok (lookupA p'.chats chatID))

/-- Body of `Client.processMessage` (src/unnamed/part_001 lines 394-449),
without the outer catch: validate the payload, resolve the thread id,
resolve or fetch or minimally create the owning chat (the inner
try/catch around the fetch is the inner `match`), upsert the message into
the chat's nested cache and the global cache, and emit `messageCreate` when
`Util.isMessageValid` accepts it. The second component is the exception
escaping the body (only an emit listener can throw here). -/
def processMessageBody (now : ℚ) (fetch : String → Except String ChatData)
    (listen : Action → Option String) (p : PipeState)
    (messagePayload : Option MsgData) (eventData : EventData) :
    PipeState × Option String :=
  match messagePayload with
  | none => (p, none)
  | some m =>
    if strFalsy m.user_id || strFalsy m.item_id then (p, none)
    else
      let tid? := orFalsy eventData.threadId m.thread_id
      if strFalsy tid? then (p, none)
      else
        let threadId := tid?.getD ""
        let stc : PipeState × Chat :=
          match lookupA p.chats threadId with
          | some c => (p, c)
          | none =>
            match fetchChatM fetch p threadId with
            | (p', Except.ok (some c)) => (p', c)
            | (p', Except.ok none) =>
              let c := mkChat threadId { thread_id := threadId, pending := false }
              ({ p' with chats := setA p'.chats threadId c }, c)
            | (p', Except.error _) =>
              let c := mkChat threadId { thread_id := threadId, pending := false }
              ({ p' with chats := setA p'.chats threadId c }, c)
        let p1 := stc.1
        let chat := stc.2
        let itemId := m.item_id.getD ""
        let stm : PipeState × MsgObj :=
          match lookupA chat.messages itemId with
          | some msgOld =>
            let msgNew := patchMsg msgOld m
            let chat' := { chat with messages := setA chat.messages itemId msgNew }
            ({ p1 with chats := setA p1.chats threadId chat' }, msgNew)
          | none =>
            let msgNew := mkMessage threadId m
            let chat' := { chat with messages := setA chat.messages msgNew.id msgNew }
            ({ p1 with chats := setA p1.chats threadId chat',
                       messages := setA p1.messages msgNew.id threadId }, msgNew)
        let p2 := stm.1
        let msg := stm.2
        if isMessageValid now msg.timestamp then
          (emitP p2 (Action.messageCreate msg.id msg.chatId),
           listen (Action.messageCreate msg.id msg.chatId))
        else (p2, none)

/-- `Client.processMessage` with its outer try/catch: any error raised inside
is logged and swallowed, never rethrown. -/
def processMessage (now : ℚ) (fetch : String → Except String ChatData)
    (listen : Action → Option String) (p : PipeState)
    (messagePayload : Option MsgData) (eventData : EventData) :
    PipeState × Option String :=
  match processMessageBody now fetch listen p messagePayload eventData with
  | (p', some _) => (p', none)
  | (p', none) => (p', none)

/-- `handleMessageWrapper` (src/unnamed/part_001 lines 216-232): reject an
envelope without a message payload, run the dedup check on `item_id` (which
inserts a new id), and hand fresh messages to `processMessage`; its own
try/catch swallows any error. Note: it performs no `ready` check. -/
def handleMessageWrapper (now : ℚ) (fetch : String → Except String ChatData)
    (listen : Action → Option String) (st : ClientState) (data : EventData) :
    ClientState × Option String :=
  let r : ClientState × Option String :=
    match data.message with
    | none => (st, none)
    | some m =>
      let dd := isNewMessageById st.maxIds st.processedMessageIds m.item_id
      let st1 := { st with processedMessageIds := dd.2 }
      if dd.1 then
        let pr := processMessage now fetch listen st1.pipe (some m) data
        (st1.withPipe pr.1, pr.2)
      else (st1, none)
  (r.1, none)

/-- `handleFbnsReceive` (src/unnamed/part_001 lines 345-361): route a push
notification by category. The `fetchUser` collaborator round-trip is
abstracted to the emitted user id. -/
def handleFbnsReceive (st : ClientState) (d : FbnsData) : ClientState :=
  let st1 :=
    if d.pushCategory = "new_follower" then
      emitA st (Action.newFollower d.sourceUserId)
    else st
  let st2 :=
    if d.pushCategory = "private_user_follow_request" then
      emitA st1 (Action.followRequest d.sourceUserId)
    else st1
  if d.pushCategory = "direct_v2_pending" then
    emitA st2 Action.pendingRequestNotification
  else st2

/-- Inbound events as seen by the handlers registered in
`registerRealtimeHandlers` (src/unnamed/part_001 lines 212-321). -/
inductive InEvent where
  | receive (topicId payload : String)
  | message (d : EventData)
  | direct (d : EventData)
  | fbnsPush (d : FbnsData)
  | close
deriving DecidableEq

/-- One inbound event dispatched to the registered handlers:
`receive` buffers when not ready, else emits `rawRealtime` and runs the
topic-146 parser; `message` and `direct` go to `handleMessageWrapper`
unconditionally; the FBNS push subscription buffers when not ready, else
emits `rawFbns` and routes; `close` clears `ready` and emits
`disconnected`. -/
def step (now : ℚ) (fetch : String → Except String ChatData)
    (listen : Action → Option String) (st : ClientState) (ev : InEvent) :
    ClientState :=
  match ev with
  | InEvent.receive topicId payload =>
    if st.ready = false then
      { st with eventsToReplay := st.eventsToReplay ++ [BufEvent.realtime topicId payload] }
    else
      let st1 := emitA st (Action.rawRealtime topicId payload)
      if topicId = "146" then emitA st1 (Action.parseInbox payload) else st1
  | InEvent.message d => (handleMessageWrapper now fetch listen st d).1
  | InEvent.direct d => (handleMessageWrapper now fetch listen st d).1
  | InEvent.fbnsPush d =>
    if st.ready = false then
      { st with eventsToReplay := st.eventsToReplay ++ [BufEvent.fbns d] }
    else handleFbnsReceive (emitA st (Action.rawFbns d.pushCategory d.sourceUserId)) d
  | InEvent.close =>
    { st with ready := false, emitted := st.emitted ++ [Action.disconnected] }

/-- Replay of one buffered event (src/unnamed/part_001 lines 540-554):
a buffered realtime event runs the topic-146 parser only (no `rawRealtime`),
a buffered FBNS event is routed (no `rawFbns`). -/
def replayEvent (st : ClientState) (e : BufEvent) : ClientState :=
  match e with
  | BufEvent.realtime topicId payload =>
    if topicId = "146" then emitA st (Action.parseInbox payload) else st
  | BufEvent.fbns d => handleFbnsReceive st d

/-- Tail of `Client.login` (src/unnamed/part_001 lines 535-555): set `ready`,
emit `connected`, replay the buffer in arrival order, then clear it. -/
def loginReadyFlip (st : ClientState) : ClientState :=
  let st1 := { st with ready := true }
  let st2 := emitA st1 Action.connected
  let st3 := st2.eventsToReplay.foldl replayEvent st2
  { st3 with eventsToReplay := [] }

/-- Trace contributed by routing one FBNS payload. -/
def fbnsTrace (d : FbnsData) : List Action :=
  (if d.pushCategory = "new_follower" then [Action.newFollower d.sourceUserId] else []) ++
    (if d.pushCategory = "private_user_follow_request" then
      [Action.followRequest d.sourceUserId] else []) ++
    (if d.pushCategory = "direct_v2_pending" then
      [Action.pendingRequestNotification] else [])

/-- Trace contributed by replaying one buffered event. -/
def replayTraceOf : BufEvent → List Action
  | BufEvent.realtime topicId payload =>
    if topicId = "146" then [Action.parseInbox payload] else []
  | BufEvent.fbns d => fbnsTrace d

/-- Chat-cache pre-population inside `login` (src/unnamed/part_001 lines
479-493): every thread is cached in `chats`, and a pending thread is cached
in `pendingChats` as well. -/
def prepopulateChats (st : ClientState) (threads : List ChatData) : ClientState :=
  threads.foldl
    (fun s th =>
      let chat := mkChat th.thread_id th
      let s1 := { s with chats := setA s.chats th.thread_id chat }
      if chat.pending then
        { s1 with pendingChats := setA s1.pendingChats th.thread_id chat }
      else s1)
    st

/-- `approveMessageRequest` (src/unnamed/part_001 lines 681-704). `apiOk`
models the remote approve call (false: it threw, caught, return false). On
success, a cached pending chat gets its pending flag cleared, is written to
`chats`, removed from `pendingChats`, and `messageRequestApproved` fires. -/
def approveMessageRequest (apiOk : Bool) (st : ClientState)
    (threadId : Option String) : ClientState × Bool :=
  if strFalsy threadId then (st, false)
  else
    let tid := threadId.getD ""
    if apiOk = false then (st, false)
    else
      match lookupA st.pendingChats tid with
      | some chat =>
        let chat' := { chat with pending := false }
        let st1 := { st with chats := setA st.chats tid chat',
                             pendingChats := eraseA st.pendingChats tid }
        (emitA st1 (Action.messageRequestApproved tid), true)
      | none => (st, true)

/-- `declineMessageRequest` (src/unnamed/part_001 lines 711-732). On success,
a cached pending chat is removed from `pendingChats` (the `chats` cache is
untouched) and `messageRequestDeclined` fires. -/
def declineMessageRequest (apiOk : Bool) (st : ClientState)
    (threadId : Option String) : ClientState × Bool :=
  if strFalsy threadId then (st, false)
  else
    let tid := threadId.getD ""
    if apiOk = false then (st, false)
    else
      match lookupA st.pendingChats tid with
      | some _ =>
        (emitA { st with pendingChats := eraseA st.pendingChats tid }
          (Action.messageRequestDeclined tid), true)
      | none => (st, true)

/-- Environment of `attemptLogin` (src/unnamed/part_001 lines 164-205): the
outcome of the session-restore round (file access, read, parse, deserialize
and validate collapsed to one fallible step), of the cookie load, and of the
cookie validation round-trip. -/
structure LoginEnv where
  sessionRestore : Except String Unit
  cookieLoad : Except String Unit
  cookieValidate : Except String Unit

/-- Observable file-system side effects of `attemptLogin`. -/
structure LoginTrace where
  cookieFileRead : Bool
  sessionFileWritten : Bool
deriving DecidableEq

/-- `attemptLogin` (src/unnamed/part_001 lines 164-205): try the session
file; on any failure fall through to the cookie path (read cookies, validate,
then persist the session file); each step's exception is caught locally. -/
def attemptLogin (env : LoginEnv) : Bool × LoginTrace :=
  match env.sessionRestore with
  | Except.ok _ => (true, { cookieFileRead := false, sessionFileWritten := false })
  | Except.error _ =>
    match env.cookieLoad with
    | Except.error _ => (false, { cookieFileRead := true, sessionFileWritten := false })
    | Except.ok _ =>
      match env.cookieValidate with
      | Except.error _ => (false, { cookieFileRead := true, sessionFileWritten := false })
      | Except.ok _ => (true, { cookieFileRead := true, sessionFileWritten := true })

/-- Gate at the top of `Client.login` (src/unnamed/part_001 lines 457-461):
`attemptLogin`, then throw the descriptive error when it failed. -/
def login (env : LoginEnv) : Except String LoginTrace :=
  let r := attemptLogin env
  if r.1 then Except.ok r.2
  else Except.error "❌ No valid login method succeeded (session or cookies)."

/-- Payload of an entity: an insertion-ordered field map. -/
abbrev Payload := List (String × String)

/-- Modelled from the spec: `_patch` on a cache entity (entity class files
not under src/) — fields present in the incoming payload overwrite, fields
absent from it are preserved. -/
def patchPayload (base incoming : Payload) : Payload :=
  incoming.foldl (fun acc kv => setA acc kv.1 kv.2) base

/-- A cached user entity: an allocation tag standing for the JS object
reference, and the merged payload. -/
structure UserEnt where
  ref : Nat
  payload : Payload
deriving DecidableEq

/-- The users cache with an allocation counter for fresh references. -/
structure UserCache where
  users : List (String × UserEnt)
  nextRef : Nat
deriving DecidableEq

/-- `_patchOrCreateUser` (src/unnamed/part_000 lines 270-277): patch the
cached entity in place when the id is known, else construct and insert a new
entity (a fresh reference); return the cache entry for the id. -/
def patchOrCreateUser (st : UserCache) (userID : String) (userPayload : Payload) :
    UserEnt × UserCache :=
  match lookupA st.users userID with
  | some u =>
    let u' := { u with payload := patchPayload u.payload userPayload }
    (u', { st with users := setA st.users userID u' })
  | none =>
    let u : UserEnt := { ref := st.nextRef, payload := patchPayload [] userPayload }
    (u, { users := setA st.users userID u, nextRef := st.nextRef + 1 })

/-- A sequence of `_patchOrCreateUser` calls on one id, collecting the
returned entities in call order. -/
def patchOrCreateUserRun : UserCache → String → List Payload → List UserEnt × UserCache
  | st, _, [] => ([], st)
  | st, userID, p :: rest =>
    let r := patchOrCreateUser st userID p
    let rr := patchOrCreateUserRun r.2 userID rest
    (r.1 :: rr.1, rr.2)

/-- Declarative field-wise merge of a payload sequence, stated independently
of the cache implementation: the last payload mentioning a field wins. -/
def mergedField : List Payload → String → Option String
  | [], _ => none
  | p :: rest, k =>
    match mergedField rest k with
    | some v => some v
    | none => lookupA p k

/-- A dedup-window run from the empty window. -/
def dedupRun (maxIds : Nat) (ids : List (Option String)) : List String :=
  ids.foldl (fun st i => (isNewMessageById maxIds st i).2) []

/-- A fetch oracle that always throws. -/
def fetchNone : String → Except String ChatData :=
  fun _ => Except.error "fetch failed"

/-- An emit listener that never throws. -/
def listenOk : Action → Option String :=
  fun _ => none

/-- A fresh, complete message payload (timestamp 5 on a clock at 0). -/
def msgFresh : MsgData :=
  { item_id := some "m1", user_id := some "u1", thread_id := some "t1", timestamp := 5 }

def evFresh : EventData := { message := some msgFresh, threadId := none }

/-- A complete payload whose millisecond-scale timestamp is 5 seconds in the
past on a clock reading 1760000000000 ms. -/
def msgMs5s : MsgData :=
  { item_id := some "i1", user_id := some "u1", thread_id := some "t1",
    timestamp := 1759999995000 }

def evMs5s : EventData := { message := some msgMs5s, threadId := none }

/-- A payload carrying an item id but no sender user id. -/
def msgNoUser : MsgData :=
  { item_id := some "i2", user_id := none, thread_id := some "t2", timestamp := 5 }

def evNoUser : EventData := { message := some msgNoUser, threadId := none }

/-- The later, complete payload with the same item id as `msgNoUser`. -/
def msgFull2 : MsgData :=
  { item_id := some "i2", user_id := some "u2", thread_id := some "t2", timestamp := 5 }

def evFull2 : EventData := { message := some msgFull2, threadId := none }

/-- A pending inbox thread record. -/
def pendingThread42 : ChatData := { thread_id := "42", pending := true }

/-- The cache state after `login` pre-populates one pending thread. -/
def stPrepop : ClientState := prepopulateChats (initState 1000) [pendingThread42]

/-- The chat object built for that pending thread. -/
def chat42 : Chat := mkChat "42" pendingThread42

/-- Whether a trace contains a `messageCreate` emission. -/
def hasMessageCreate (l : List Action) : Bool :=
  l.any fun a =>
    match a with
    | Action.messageCreate _ _ => true
    | _ => false

/-! ## Theorems -/

theorem isNewMessageById_length_le (maxIds : Nat) (st : List String)
    (i : Option String) (h : st.length ≤ maxIds) :
    ((isNewMessageById maxIds st i).2).length ≤ maxIds := by
  simp only [isNewMessageById]
  split
  · simpa using h
  · split
    · simpa using h
    · split
      · simp only [List.length_drop, List.length_append, List.length_singleton]
        omega
      · rename_i hlt
        simp only [List.length_append, List.length_singleton] at hlt ⊢
        omega

theorem dedupRun_aux (maxIds : Nat) (ids : List (Option String)) (st : List String)
    (h : st.length ≤ maxIds) :
    (ids.foldl (fun s i => (isNewMessageById maxIds s i).2) st).length ≤ maxIds := by
  induction ids generalizing st with
  | nil => simpa using h
  | cons i rest ih => exact ih _ (isNewMessageById_length_le _ _ _ h)

/-- C6: over every call sequence, the dedup window's size never exceeds
`maxProcessedMessageIds` after a call; a non-empty id already in the window
is reported duplicate with the window unchanged (no position refresh); a
fresh non-empty id is appended and, exactly when capacity is exceeded, the
single oldest entry is evicted (strict FIFO); the evicted oldest id is
treated as new on its next occurrence. -/
theorem C6_dedup_window (maxIds : Nat) :
    (∀ ids, (dedupRun maxIds ids).length ≤ maxIds) ∧
    (∀ (st : List String) (id : String), id.isEmpty = false → id ∈ st →
      isNewMessageById maxIds st (some id) = (false, st)) ∧
    (∀ (st : List String) (id : String), id.isEmpty = false → id ∉ st →
      isNewMessageById maxIds st (some id) =
        (true, if maxIds < st.length + 1 then (st ++ [id]).drop 1 else st ++ [id])) ∧
    (∀ (h : String) (rest : List String) (id : String),
      maxIds = (h :: rest).length → (h :: rest).Nodup →
      h.isEmpty = false → id.isEmpty = false → id ∉ h :: rest →
      (isNewMessageById maxIds (h :: rest) (some id)).2 = rest ++ [id] ∧
      (isNewMessageById maxIds (rest ++ [id]) (some h)).1 = true) := by
  refine ⟨fun ids => dedupRun_aux maxIds ids [] (by simp), ?_, ?_, ?_⟩
  · intro st id hne hmem
    simp [isNewMessageById, strFalsy, hne, hmem]
  · intro st id hne hmem
    simp only [isNewMessageById, strFalsy, hne, Option.getD_some, hmem,
      if_false, Bool.false_eq_true, List.length_append, List.length_singleton]
    split <;> rfl
  · intro h rest id hmax hnd hhne hine hmem
    have hnotmem : id ∉ h :: rest := hmem
    constructor
    · simp [isNewMessageById, strFalsy, hine, hnotmem, hmax]
    · have hh1 : h ∉ rest := by
        intro hc
        exact (List.nodup_cons.mp hnd).1 hc
      have hh2 : h ≠ id := by
        intro hc
        exact hmem (hc ▸ List.mem_cons_self h rest)
      have hnm : h ∉ rest ++ [id] := by
        intro hc
        rcases List.mem_append.mp hc with hc1 | hc2
        · exact hh1 hc1
        · exact hh2 (List.mem_singleton.mp hc2)
      simp only [isNewMessageById, strFalsy, hhne, Option.getD_some, hnm,
        if_false, Bool.false_eq_true]
      split <;> rfl

theorem C6_dedup_window_witness :
    ("a" : String).isEmpty = false ∧ ("a" : String) ∈ ["a", "b"] ∧
    isNewMessageById 2 ["a", "b"] (some "a") = (false, ["a", "b"]) ∧
    (isNewMessageById 2 ["a", "b"] (some "c")).2 = ["b", "c"] ∧
    (isNewMessageById 2 ["b", "c"] (some "a")).1 = true := by
  refine ⟨by decide, by decide, ?_, ?_, ?_⟩
  · exact (C6_dedup_window 2).2.1 ["a", "b"] "a" (by decide) (by decide)
  · exact ((C6_dedup_window 2).2.2.2 "a" ["b"] "c" (by decide) (by decide)
      (by decide) (by decide) (by decide)).1
  · exact ((C6_dedup_window 2).2.2.2 "a" ["b"] "c" (by decide) (by decide)
      (by decide) (by decide) (by decide)).2

/-- C5: `login()` tries the session-file restore first; the cookie file is
read only when the session restore fails to validate; with an invalid or
absent session file and a valid cookie file, login succeeds and the session
file is written afterward; when both paths fail, `login()` rejects with the
descriptive failure and attempts no further fallback. -/
theorem C5_login_fallback :
    (∀ env : LoginEnv, env.sessionRestore = Except.ok () →
      attemptLogin env = (true, ⟨false, false⟩) ∧
      login env = Except.ok ⟨false, false⟩) ∧
    (∀ (env : LoginEnv) (e : String), env.sessionRestore = Except.error e →
      env.cookieLoad = Except.ok () → env.cookieValidate = Except.ok () →
      attemptLogin env = (true, ⟨true, true⟩) ∧
      login env = Except.ok ⟨true, true⟩) ∧
    (∀ (env : LoginEnv) (e1 e2 : String), env.sessionRestore = Except.error e1 →
      env.cookieLoad = Except.error e2 →
      login env =
        Except.error "❌ No valid login method succeeded (session or cookies).") ∧
    (∀ (env : LoginEnv) (e1 e2 : String), env.sessionRestore = Except.error e1 →
      env.cookieLoad = Except.ok () → env.cookieValidate = Except.error e2 →
      login env =
        Except.error "❌ No valid login method succeeded (session or cookies).") := by
  refine ⟨?_, ?_, ?_, ?_⟩
  · intro env h
    simp [attemptLogin, login, h]
  · intro env e h1 h2 h3
    simp [attemptLogin, login, h1, h2, h3]
  · intro env e1 e2 h1 h2
    simp [attemptLogin, login, h1, h2]
  · intro env e1 e2 h1 h2 h3
    simp [attemptLogin, login, h1, h2, h3]

theorem C5_login_fallback_witness :
    (({ sessionRestore := Except.error "no session", cookieLoad := Except.ok (),
        cookieValidate := Except.ok () } : LoginEnv).sessionRestore =
      Except.error "no session") ∧
    login { sessionRestore := Except.error "no session", cookieLoad := Except.ok (),
            cookieValidate := Except.ok () } = Except.ok ⟨true, true⟩ :=
  ⟨rfl, (C5_login_fallback.2.1
    { sessionRestore := Except.error "no session", cookieLoad := Except.ok (),
      cookieValidate := Except.ok () } "no session" rfl rfl rfl).2⟩

theorem withPipe_pipe (st : ClientState) : st.withPipe st.pipe = st := by
  cases st
  rfl

theorem handleMessageWrapper_frame (now : ℚ) (fetch : String → Except String ChatData)
    (listen : Action → Option String) (st : ClientState) (data : EventData) :
    (handleMessageWrapper now fetch listen st data).1.ready = st.ready ∧
    (handleMessageWrapper now fetch listen st data).1.eventsToReplay = st.eventsToReplay ∧
    (handleMessageWrapper now fetch listen st data).1.pendingChats = st.pendingChats ∧
    (handleMessageWrapper now fetch listen st data).1.maxIds = st.maxIds := by
  unfold handleMessageWrapper
  rcases data with ⟨mm, tid⟩
  rcases mm with _ | m
  · exact ⟨rfl, rfl, rfl, rfl⟩
  · dsimp only
    split <;> exact ⟨rfl, rfl, rfl, rfl⟩

theorem handleMessageWrapper_ready_irrel (now : ℚ)
    (fetch : String → Except String ChatData) (listen : Action → Option String)
    (st : ClientState) (data : EventData) (b : Bool) :
    handleMessageWrapper now fetch listen { st with ready := b } data =
      ({ (handleMessageWrapper now fetch listen st data).1 with ready := b },
       (handleMessageWrapper now fetch listen st data).2) := by
  unfold handleMessageWrapper ClientState.pipe ClientState.withPipe
  rcases st with ⟨r, er, pm, ch, pch, ms, em, mx⟩
  rcases data with ⟨mm, tid⟩
  rcases mm with _ | m
  · rfl
  · dsimp only
    split <;> rfl

theorem processMessage_fst (now : ℚ) (fetch : String → Except String ChatData)
    (listen : Action → Option String) (p : PipeState) (mp : Option MsgData)
    (ev : EventData) :
    (processMessage now fetch listen p mp ev).1 =
      (processMessageBody now fetch listen p mp ev).1 := by
  unfold processMessage
  split <;> rename_i h <;> rw [h]

/-- C9: for any oracle behavior (a throwing chat fetch, a throwing emit
listener) and any input, `processMessage` and `handleMessageWrapper` never
let an exception escape to their caller: errors raised inside are caught
(state mutations made before the throw are kept). -/
theorem C9_no_propagation (now : ℚ) (fetch : String → Except String ChatData)
    (listen : Action → Option String) (p : PipeState) (mp : Option MsgData)
    (ev : EventData) (st : ClientState) (data : EventData) :
    (processMessage now fetch listen p mp ev).2 = none ∧
    (processMessage now fetch listen p mp ev).1 =
      (processMessageBody now fetch listen p mp ev).1 ∧
    (handleMessageWrapper now fetch listen st data).2 = none := by
  refine ⟨?_, processMessage_fst now fetch listen p mp ev, rfl⟩
  unfold processMessage
  split <;> rfl

theorem handleFbnsReceive_eq (st : ClientState) (d : FbnsData) :
    handleFbnsReceive st d = { st with emitted := st.emitted ++ fbnsTrace d } := by
  rcases st with ⟨r, er, pm, ch, pch, ms, em, mx⟩
  unfold handleFbnsReceive fbnsTrace emitA
  split_ifs <;> simp_all

theorem replayEvent_eq (st : ClientState) (e : BufEvent) :
    replayEvent st e = { st with emitted := st.emitted ++ replayTraceOf e } := by
  cases e with
  | realtime t p =>
    rcases st with ⟨r, er, pm, ch, pch, ms, em, mx⟩
    simp only [replayEvent, replayTraceOf, emitA]
    split_ifs <;> simp
  | fbns d =>
    show handleFbnsReceive st d = _
    rw [handleFbnsReceive_eq]
    rfl

theorem foldl_replayEvent (l : List BufEvent) (st : ClientState) :
    l.foldl replayEvent st =
      { st with emitted := st.emitted ++ (l.map replayTraceOf).flatten } := by
  induction l generalizing st with
  | nil =>
    rcases st with ⟨r, er, pm, ch, pch, ms, em, mx⟩
    simp
  | cons e rest ih =>
    rw [List.foldl_cons, replayEvent_eq, ih]
    rcases st with ⟨r, er, pm, ch, pch, ms, em, mx⟩
    simp

theorem fetchChatM_emitted (fetch : String → Except String ChatData)
    (p : PipeState) (chatID : String) :
    (fetchChatM fetch p chatID).1.emitted = p.emitted := by
  unfold fetchChatM
  split
  · rfl
  · split <;> rfl

theorem processMessageBody_spec (now : ℚ) (fetch : String → Except String ChatData)
    (listen : Action → Option String) (p : PipeState) (m : MsgData) (ev : EventData)
    (h1 : strFalsy m.user_id = false) (h2 : strFalsy m.item_id = false)
    (h3 : strFalsy (orFalsy ev.threadId m.thread_id) = false) :
    ∃ (P : PipeState) (msg : MsgObj),
      processMessageBody now fetch listen p (some m) ev =
        (if isMessageValid now msg.timestamp then
          (emitP P (Action.messageCreate msg.id msg.chatId),
           listen (Action.messageCreate msg.id msg.chatId))
         else (P, none)) ∧
      P.emitted = p.emitted ∧ msg.timestamp = m.timestamp := by
  have hcond : (strFalsy m.user_id || strFalsy m.item_id) = false := by
    rw [h1, h2]
    rfl
  unfold processMessageBody
  simp only [hcond, h3, Bool.false_eq_true, if_false]
  cases hl : lookupA p.chats ((orFalsy ev.threadId m.thread_id).getD "") with
  | some c =>
    simp only [hl]
    cases hm : lookupA c.messages (m.item_id.getD "") with
    | some msgOld =>
      simp only [hm]
      exact ⟨_, _, rfl, rfl, rfl⟩
    | none =>
      simp only [hm]
      exact ⟨_, _, rfl, rfl, rfl⟩
  | none =>
    simp only [hl]
    have hem := fetchChatM_emitted fetch p ((orFalsy ev.threadId m.thread_id).getD "")
    rcases hfe : fetchChatM fetch p ((orFalsy ev.threadId m.thread_id).getD "") with ⟨p', r⟩
    rw [hfe] at hem
    rcases r with e | oc
    · simp only [hfe]
      cases hm : lookupA (mkChat ((orFalsy ev.threadId m.thread_id).getD "")
          { thread_id := (orFalsy ev.threadId m.thread_id).getD "",
            pending := false }).messages (m.item_id.getD "") with
      | some msgOld =>
        simp only [hm]
        exact ⟨_, _, rfl, hem, rfl⟩
      | none =>
        simp only [hm]
        exact ⟨_, _, rfl, hem, rfl⟩
    · rcases oc with _ | c
      · simp only [hfe]
        cases hm : lookupA (mkChat ((orFalsy ev.threadId m.thread_id).getD "")
            { thread_id := (orFalsy ev.threadId m.thread_id).getD "",
              pending := false }).messages (m.item_id.getD "") with
        | some msgOld =>
          simp only [hm]
          exact ⟨_, _, rfl, hem, rfl⟩
        | none =>
          simp only [hm]
          exact ⟨_, _, rfl, hem, rfl⟩
      · simp only [hfe]
        cases hm : lookupA c.messages (m.item_id.getD "") with
        | some msgOld =>
          simp only [hm]
          exact ⟨_, _, rfl, hem, rfl⟩
        | none =>
          simp only [hm]
          exact ⟨_, _, rfl, hem, rfl⟩

theorem processMessageBody_rejects (now : ℚ) (fetch : String → Except String ChatData)
    (listen : Action → Option String) (p : PipeState) (m : MsgData) (ev : EventData)
    (h : strFalsy m.user_id = true ∨ strFalsy m.item_id = true ∨
      strFalsy (orFalsy ev.threadId m.thread_id) = true) :
    processMessageBody now fetch listen p (some m) ev = (p, none) := by
  unfold processMessageBody
  rcases h with h | h | h
  · simp [h]
  · simp [h]
  · simp only [h, if_true]
    split <;> rfl

theorem processMessageBody_emitted_suffix (now : ℚ)
    (fetch : String → Except String ChatData) (listen : Action → Option String)
    (p : PipeState) (mp : Option MsgData) (ev : EventData) :
    ∃ t, (processMessageBody now fetch listen p mp ev).1.emitted = p.emitted ++ t := by
  rcases mp with _ | m
  · exact ⟨[], by simp [processMessageBody]⟩
  · by_cases h1 : strFalsy m.user_id = true
    · exact ⟨[], by rw [processMessageBody_rejects now fetch listen p m ev (Or.inl h1)]; simp⟩
    · by_cases h2 : strFalsy m.item_id = true
      · exact ⟨[], by
          rw [processMessageBody_rejects now fetch listen p m ev (Or.inr (Or.inl h2))]; simp⟩
      · by_cases h3 : strFalsy (orFalsy ev.threadId m.thread_id) = true
        · exact ⟨[], by
            rw [processMessageBody_rejects now fetch listen p m ev (Or.inr (Or.inr h3))]; simp⟩
        · obtain ⟨P, msg, heq, hem, hts⟩ := processMessageBody_spec now fetch listen p m ev
            (Bool.not_eq_true _ ▸ h1) (Bool.not_eq_true _ ▸ h2) (Bool.not_eq_true _ ▸ h3)
          rw [heq]
          by_cases hv : isMessageValid now msg.timestamp = true
          · exact ⟨[Action.messageCreate msg.id msg.chatId], by simp [hv, emitP, hem]⟩
          · refine ⟨[], ?_⟩
            rw [if_neg (by simpa using hv)]
            simp [hem]

theorem step_emitted_suffix (now : ℚ) (fetch : String → Except String ChatData)
    (listen : Action → Option String) (st : ClientState) (e : InEvent) :
    ∃ t, (step now fetch listen st e).emitted = st.emitted ++ t := by
  have hwrap : ∀ d : EventData,
      ∃ t, (handleMessageWrapper now fetch listen st d).1.emitted = st.emitted ++ t := by
    intro d
    unfold handleMessageWrapper
    rcases d with ⟨mm, tid⟩
    rcases mm with _ | m
    · exact ⟨[], by simp⟩
    · dsimp only
      split
      · obtain ⟨t, ht⟩ := processMessageBody_emitted_suffix now fetch listen
          ({ st with processedMessageIds :=
            (isNewMessageById st.maxIds st.processedMessageIds m.item_id).2 } :
              ClientState).pipe (some m) ⟨some m, tid⟩
        refine ⟨t, ?_⟩
        show ((_ : ClientState).withPipe
          (processMessage now fetch listen _ (some m) ⟨some m, tid⟩).1).emitted = _
        rw [show ∀ (s : ClientState) (q : PipeState), (s.withPipe q).emitted = q.emitted
          from fun _ _ => rfl]
        rw [processMessage_fst]
        exact ht
      · exact ⟨[], by simp⟩
  cases e with
  | receive t p =>
    simp only [step]
    by_cases hr : st.ready = false
    · exact ⟨[], by simp [hr]⟩
    · rw [if_neg hr]
      by_cases ht : t = "146"
      · exact ⟨[Action.rawRealtime t p, Action.parseInbox p], by simp [ht, emitA]⟩
      · exact ⟨[Action.rawRealtime t p], by simp [ht, emitA]⟩
  | message d => exact hwrap d
  | direct d => exact hwrap d
  | fbnsPush d =>
    simp only [step]
    by_cases hr : st.ready = false
    · exact ⟨[], by simp [hr]⟩
    · rw [if_neg hr, handleFbnsReceive_eq]
      exact ⟨Action.rawFbns d.pushCategory d.sourceUserId :: fbnsTrace d, by simp [emitA]⟩
  | close => exact ⟨[Action.disconnected], rfl⟩

theorem loginReadyFlip_eq (st : ClientState) :
    loginReadyFlip st =
      { st with
        ready := true,
        eventsToReplay := [],
        emitted := st.emitted ++ [Action.connected] ++
          (st.eventsToReplay.map replayTraceOf).flatten } := by
  rcases st with ⟨r, er, pm, ch, pch, ms, em, mx⟩
  unfold loginReadyFlip emitA
  dsimp only
  rw [foldl_replayEvent]

/-- C3 (counterexample): a buffered topic-146 realtime event is not replayed
with the same handling as the live path: live handling emits `rawRealtime`
before running the parser, the replay path does not. -/
theorem C3_replay_not_live :
    (replayEvent { initState 1000 with ready := true }
      (BufEvent.realtime "146" "x")).emitted ≠
    (step 0 fetchNone listenOk { initState 1000 with ready := true }
      (InEvent.receive "146" "x")).emitted := by
  decide

/-- C3 (amended): after the ready flip, the buffer is drained strictly in
original arrival order, each buffered event contributing its replay
processing (the topic-146 parse for realtime events, FBNS routing for push
events — raw passthrough events are not re-emitted and realtime events of
other topics are dropped) exactly once; the buffer is cleared, the caches
are untouched, and any later live event only appends to the trace after the
replayed ones. -/
theorem C3_amended_replay :
    (∀ st : ClientState, (loginReadyFlip st).eventsToReplay = []) ∧
    (∀ st : ClientState, (loginReadyFlip st).emitted =
      st.emitted ++ [Action.connected] ++
        (st.eventsToReplay.map replayTraceOf).flatten) ∧
    (∀ st : ClientState, (loginReadyFlip st).ready = true ∧
      (loginReadyFlip st).processedMessageIds = st.processedMessageIds ∧
      (loginReadyFlip st).chats = st.chats ∧
      (loginReadyFlip st).pendingChats = st.pendingChats ∧
      (loginReadyFlip st).messages = st.messages) ∧
    (∀ (now : ℚ) (fetch : String → Except String ChatData)
      (listen : Action → Option String) (st : ClientState) (e : InEvent),
      ∃ t, (step now fetch listen st e).emitted = st.emitted ++ t) := by
  refine ⟨?_, ?_, ?_, step_emitted_suffix⟩
  · intro st
    rw [loginReadyFlip_eq]
  · intro st
    rw [loginReadyFlip_eq]
  · intro st
    rw [loginReadyFlip_eq]
    exact ⟨rfl, rfl, rfl, rfl, rfl⟩

/-- C4 (counterexample): `ready` is not monotone and the replay buffer is
repopulated after the pipeline has been ready: a realtime `close` event
resets `ready` to false, after which an inbound `receive` event is buffered
again. -/
theorem C4_ready_not_monotone :
    (step 0 fetchNone listenOk { initState 1000 with ready := true }
      InEvent.close).ready = false ∧
    (step 0 fetchNone listenOk
      (step 0 fetchNone listenOk { initState 1000 with ready := true } InEvent.close)
      (InEvent.receive "146" "x")).eventsToReplay = [BufEvent.realtime "146" "x"] := by
  constructor <;> rfl

/-- C4 (amended): `ready` is false at construction and is set true only by
the tail of a successful `login`; no inbound event sets it true, and the
realtime `close` event resets it to false (logout does the same), after
which inbound `receive` events repopulate the replay buffer. -/
theorem C4_amended_ready_lifecycle :
    (∀ maxIds : Nat, (initState maxIds).ready = false) ∧
    (∀ (now : ℚ) (fetch : String → Except String ChatData)
      (listen : Action → Option String) (st : ClientState) (ev : InEvent),
      (step now fetch listen st ev).ready =
        (if ev = InEvent.close then false else st.ready)) ∧
    (∀ st : ClientState, (loginReadyFlip st).ready = true) ∧
    (∀ (now : ℚ) (fetch : String → Except String ChatData)
      (listen : Action → Option String) (st : ClientState) (t p : String),
      (step now fetch listen { st with ready := false }
        (InEvent.receive t p)).eventsToReplay =
          st.eventsToReplay ++ [BufEvent.realtime t p]) := by
  refine ⟨fun _ => rfl, ?_, ?_, ?_⟩
  · intro now fetch listen st ev
    cases ev with
    | receive t p =>
      rw [show (if InEvent.receive t p = InEvent.close then false else st.ready) =
        st.ready from by simp]
      simp only [step]
      by_cases hr : st.ready = false
      · simp [hr]
      · rw [if_neg hr]
        by_cases ht : t = "146" <;> simp [ht, emitA]
    | message d =>
      have h := (handleMessageWrapper_frame now fetch listen st d).1
      simpa [step] using h
    | direct d =>
      have h := (handleMessageWrapper_frame now fetch listen st d).1
      simpa [step] using h
    | fbnsPush d =>
      rw [show (if InEvent.fbnsPush d = InEvent.close then false else st.ready) =
        st.ready from by simp]
      simp only [step]
      by_cases hr : st.ready = false
      · simp [hr]
      · rw [if_neg hr, handleFbnsReceive_eq]
        simp [emitA]
    | close => simp [step]
  · intro st
    rw [loginReadyFlip_eq]
  · intro now fetch listen st t p
    simp [step]

/-- C2 (counterexample): while `ready` is false, a realtime `message` event
is not buffered: it is deduplicated, cached and emitted immediately. -/
theorem C2_message_processed_while_not_ready :
    (initState 1000).ready = false ∧
    step 0 fetchNone listenOk (initState 1000) (InEvent.message evFresh) =
      { initState 1000 with
          processedMessageIds := ["m1"],
          chats := [("t1",
            { id := "t1",
              pending := false,
              messages := [("m1",
                { id := "m1", chatId := "t1", timestamp := 5 })] })],
          messages := [("m1", "t1")],
          emitted := [Action.messageCreate "m1" "t1"] } := by
  have hv : isMessageValid 0 5 = true := by norm_num [isMessageValid]
  refine ⟨rfl, ?_⟩
  simp +decide [step, handleMessageWrapper, processMessage, processMessageBody,
    fetchChatM, isNewMessageById, strFalsy, orFalsy, lookupA, setA, emitP, emitA,
    mkChat, mkMessage, patchMsg, initState, msgFresh, evFresh, fetchNone, listenOk,
    hv, ClientState.pipe, ClientState.withPipe]

/-- C2 (amended): while `ready` is false, realtime `receive` events and FBNS
push events are appended to the replay buffer instead of being dispatched;
realtime `message` and `direct` events are handled by `handleMessageWrapper`
immediately and identically whatever the value of `ready`, and are never
buffered; once `ready` is true, `receive` and FBNS events dispatch directly
without buffering. -/
theorem C2_amended_buffering :
    (∀ (now : ℚ) (fetch : String → Except String ChatData)
      (listen : Action → Option String) (st : ClientState) (t p : String),
      step now fetch listen { st with ready := false } (InEvent.receive t p) =
        { st with
          ready := false,
          eventsToReplay := st.eventsToReplay ++ [BufEvent.realtime t p] }) ∧
    (∀ (now : ℚ) (fetch : String → Except String ChatData)
      (listen : Action → Option String) (st : ClientState) (d : FbnsData),
      step now fetch listen { st with ready := false } (InEvent.fbnsPush d) =
        { st with
          ready := false,
          eventsToReplay := st.eventsToReplay ++ [BufEvent.fbns d] }) ∧
    (∀ (now : ℚ) (fetch : String → Except String ChatData)
      (listen : Action → Option String) (st : ClientState) (d : EventData) (b : Bool),
      handleMessageWrapper now fetch listen { st with ready := b } d =
        ({ (handleMessageWrapper now fetch listen st d).1 with ready := b },
         (handleMessageWrapper now fetch listen st d).2)) ∧
    (∀ (now : ℚ) (fetch : String → Except String ChatData)
      (listen : Action → Option String) (st : ClientState) (d : EventData),
      (step now fetch listen st (InEvent.message d)).eventsToReplay =
        st.eventsToReplay ∧
      (step now fetch listen st (InEvent.direct d)).eventsToReplay =
        st.eventsToReplay) ∧
    (∀ (now : ℚ) (fetch : String → Except String ChatData)
      (listen : Action → Option String) (st : ClientState) (t p : String)
      (d : FbnsData),
      (step now fetch listen { st with ready := true }
        (InEvent.receive t p)).eventsToReplay = st.eventsToReplay ∧
      (step now fetch listen { st with ready := true }
        (InEvent.fbnsPush d)).eventsToReplay = st.eventsToReplay) := by
  refine ⟨?_, ?_, handleMessageWrapper_ready_irrel, ?_, ?_⟩
  · intro now fetch listen st t p
    rcases st with ⟨r, er, pm, ch, pch, ms, em, mx⟩
    simp [step]
  · intro now fetch listen st d
    rcases st with ⟨r, er, pm, ch, pch, ms, em, mx⟩
    simp [step]
  · intro now fetch listen st d
    constructor
    · simpa [step] using (handleMessageWrapper_frame now fetch listen st d).2.1
    · simpa [step] using (handleMessageWrapper_frame now fetch listen st d).2.1
  · intro now fetch listen st t p d
    constructor
    · simp only [step]
      rw [if_neg (by simp)]
      by_cases ht : t = "146" <;> simp [ht, emitA]
    · simp only [step]
      rw [if_neg (by simp), handleFbnsReceive_eq]
      simp [emitA]

/-- C1 (counterexample): a message whose millisecond-scale timestamp is 5
seconds in the past (clock 1760000000000 ms) is ingested into the caches but
`messageCreate` is not emitted: `Util.isMessageValid` divides any timestamp
above 10^12 by 1000, so a recent ms-scale timestamp is treated as
microseconds and rejected as stale. -/
theorem C1_ms_scale_rejected :
    (processMessage 1760000000000 fetchNone listenOk (initState 1000).pipe
      (some msgMs5s) evMs5s).1.emitted = [] ∧
    (lookupA (processMessage 1760000000000 fetchNone listenOk (initState 1000).pipe
      (some msgMs5s) evMs5s).1.messages "i1").isSome = true := by
  have hv : isMessageValid 1760000000000 1759999995000 = false := by
    norm_num [isMessageValid]
  constructor <;>
    simp +decide [processMessage, processMessageBody, fetchChatM, strFalsy, orFalsy,
      lookupA, setA, emitP, mkChat, mkMessage, patchMsg, initState, msgMs5s,
      evMs5s, fetchNone, listenOk, hv, ClientState.pipe]

/-- C1 (amended): for every message that passes validation and
deduplication, `messageCreate` is emitted iff `Util.isMessageValid` accepts
its timestamp, i.e. iff `(t > 10^12 ? t/1000 : t) + 10^7 > now`: only
timestamps above 10^12 are divided by 1000, seconds-scale timestamps are
used as-is (never scaled up), and a recent millisecond-scale timestamp is
rejected on any clock past 1.01×10^12 ms. -/
theorem C1_emit_iff_isMessageValid (now : ℚ)
    (fetch : String → Except String ChatData) (listen : Action → Option String)
    (p : PipeState) (m : MsgData) (ev : EventData)
    (h1 : strFalsy m.user_id = false) (h2 : strFalsy m.item_id = false)
    (h3 : strFalsy (orFalsy ev.threadId m.thread_id) = false) :
    ∃ t, (processMessage now fetch listen p (some m) ev).1.emitted =
        p.emitted ++ t ∧
      hasMessageCreate t = isMessageValid now m.timestamp := by
  obtain ⟨P, msg, heq, hem, hts⟩ :=
    processMessageBody_spec now fetch listen p m ev h1 h2 h3
  rw [processMessage_fst, heq]
  by_cases hv : isMessageValid now msg.timestamp = true
  · refine ⟨[Action.messageCreate msg.id msg.chatId], ?_, ?_⟩
    · simp [hv, emitP, hem]
    · rw [← hts]
      simp [hasMessageCreate, hv]
  · refine ⟨[], ?_, ?_⟩
    · rw [if_neg (by simpa using hv)]
      simp [hem]
    · rw [← hts]
      rw [Bool.not_eq_true] at hv
      simp [hasMessageCreate, hv]

theorem C1_emit_iff_isMessageValid_witness :
    strFalsy msgFresh.user_id = false ∧ strFalsy msgFresh.item_id = false ∧
    strFalsy (orFalsy evFresh.threadId msgFresh.thread_id) = false ∧
    ∃ t, (processMessage 0 fetchNone listenOk (initState 1000).pipe
        (some msgFresh) evFresh).1.emitted = (initState 1000).pipe.emitted ++ t ∧
      hasMessageCreate t = isMessageValid 0 msgFresh.timestamp :=
  ⟨by decide, by decide, by decide,
    C1_emit_iff_isMessageValid 0 fetchNone listenOk (initState 1000).pipe msgFresh
      evFresh (by decide) (by decide) (by decide)⟩

/-- C10: when a payload carries a fresh item id but lacks a sender user id
(or its thread id cannot be resolved), the id is inserted into the dedup
window before validation rejects the message; a later, complete event with
the same item id is then suppressed as a duplicate: nothing is cached and
nothing is emitted for it. -/
theorem C10_dedup_precedes_validation (now : ℚ)
    (fetch : String → Except String ChatData) (listen : Action → Option String)
    (st : ClientState) (m : MsgData) (d : EventData) (i : String)
    (hmsg : d.message = some m) (hid : m.item_id = some i)
    (hne : i.isEmpty = false) (hnew : i ∉ st.processedMessageIds)
    (hcap : st.processedMessageIds.length < st.maxIds)
    (hrej : strFalsy m.user_id = true ∨
      strFalsy (orFalsy d.threadId m.thread_id) = true) :
    step now fetch listen st (InEvent.message d) =
      { st with processedMessageIds := st.processedMessageIds ++ [i] } ∧
    (∀ (d2 : EventData) (m2 : MsgData), d2.message = some m2 →
      m2.item_id = some i →
      step now fetch listen
        { st with processedMessageIds := st.processedMessageIds ++ [i] }
        (InEvent.message d2) =
        { st with processedMessageIds := st.processedMessageIds ++ [i] }) := by
  constructor
  · have hdd : isNewMessageById st.maxIds st.processedMessageIds m.item_id =
        (true, st.processedMessageIds ++ [i]) := by
      rw [hid]
      simp only [isNewMessageById, strFalsy, hne, Bool.false_eq_true, if_false]
      rw [if_neg (by simpa using hnew)]
      rw [if_neg (by simp only [List.length_append, List.length_singleton]; omega)]
      rfl
    have hdd1 : (isNewMessageById st.maxIds st.processedMessageIds m.item_id).1 =
        true := by rw [hdd]
    have hdd2 : (isNewMessageById st.maxIds st.processedMessageIds m.item_id).2 =
        st.processedMessageIds ++ [i] := by rw [hdd]
    have hrej3 : strFalsy m.user_id = true ∨ strFalsy m.item_id = true ∨
        strFalsy (orFalsy d.threadId m.thread_id) = true := by
      rcases hrej with h | h
      · exact Or.inl h
      · exact Or.inr (Or.inr h)
    have hbody := processMessageBody_rejects now fetch listen
      ({ st with processedMessageIds := st.processedMessageIds ++ [i] } :
        ClientState).pipe m d hrej3
    have hpm : processMessage now fetch listen
        ({ st with processedMessageIds := st.processedMessageIds ++ [i] } :
          ClientState).pipe (some m) d =
        (({ st with processedMessageIds := st.processedMessageIds ++ [i] } :
          ClientState).pipe, none) := by
      unfold processMessage
      rw [hbody]
    simp only [step, handleMessageWrapper, hmsg, hdd1, hdd2, eq_self_iff_true,
      if_true]
    rw [hpm]
    exact withPipe_pipe _
  · intro d2 m2 hm2 hid2
    have hdd' : isNewMessageById st.maxIds (st.processedMessageIds ++ [i])
        m2.item_id = (false, st.processedMessageIds ++ [i]) := by
      rw [hid2]
      simp only [isNewMessageById, strFalsy, hne, Bool.false_eq_true, if_false]
      rw [if_pos (by simp)]
    have hdd1' : (isNewMessageById st.maxIds (st.processedMessageIds ++ [i])
        m2.item_id).1 = false := by rw [hdd']
    have hdd2' : (isNewMessageById st.maxIds (st.processedMessageIds ++ [i])
        m2.item_id).2 = st.processedMessageIds ++ [i] := by rw [hdd']
    simp only [step, handleMessageWrapper, hm2, hdd1', hdd2', Bool.false_eq_true,
      if_false]

theorem C10_dedup_precedes_validation_witness :
    evNoUser.message = some msgNoUser ∧ msgNoUser.item_id = some "i2" ∧
    ("i2" : String).isEmpty = false ∧
    strFalsy msgNoUser.user_id = true ∧
    step 0 fetchNone listenOk (initState 1000) (InEvent.message evNoUser) =
      { initState 1000 with processedMessageIds := ["i2"] } ∧
    step 0 fetchNone listenOk
      { initState 1000 with processedMessageIds := ["i2"] }
      (InEvent.message evFull2) =
      { initState 1000 with processedMessageIds := ["i2"] } := by
  have h := C10_dedup_precedes_validation 0 fetchNone listenOk (initState 1000)
    msgNoUser evNoUser "i2" rfl rfl (by decide) (by decide) (by decide)
    (Or.inl (by decide))
  exact ⟨rfl, rfl, by decide, by decide, h.1, h.2 evFull2 msgFull2 rfl rfl⟩

theorem lookupA_setA {α : Type} (l : List (String × α)) (k k' : String) (v : α) :
    lookupA (setA l k v) k' = if k = k' then some v else lookupA l k' := by
  induction l with
  | nil => simp [setA, lookupA]
  | cons hd tl ih =>
    obtain ⟨a, w⟩ := hd
    by_cases hak : a = k
    · subst hak
      simp only [setA, if_pos rfl, lookupA]
      by_cases h2 : a = k' <;> simp [h2]
    · simp only [setA, if_neg hak, lookupA, ih]
      by_cases h2 : a = k' <;> by_cases h3 : k = k' <;> simp_all

theorem prepopulateChats_subset (threads : List ChatData) (st : ClientState)
    (hinv : ∀ k, (lookupA st.pendingChats k).isSome = true →
      (lookupA st.chats k).isSome = true) :
    ∀ k, (lookupA (prepopulateChats st threads).pendingChats k).isSome = true →
      (lookupA (prepopulateChats st threads).chats k).isSome = true := by
  induction threads generalizing st with
  | nil => simpa [prepopulateChats] using hinv
  | cons th rest ih =>
    have hstep : prepopulateChats st (th :: rest) =
        prepopulateChats
          (if (mkChat th.thread_id th).pending = true then
            { st with
              chats := setA st.chats th.thread_id (mkChat th.thread_id th),
              pendingChats :=
                setA st.pendingChats th.thread_id (mkChat th.thread_id th) }
          else
            { st with
              chats := setA st.chats th.thread_id (mkChat th.thread_id th) })
          rest := by
      by_cases hp : (mkChat th.thread_id th).pending = true <;>
        simp [prepopulateChats, hp]
    rw [hstep]
    by_cases hp : (mkChat th.thread_id th).pending = true
    · rw [if_pos hp]
      apply ih
      intro k hk
      rw [lookupA_setA] at hk ⊢
      by_cases h2 : th.thread_id = k
      · simp [h2]
      · rw [if_neg h2] at hk ⊢
        exact hinv k hk
    · rw [if_neg hp]
      apply ih
      intro k hk
      rw [lookupA_setA]
      by_cases h2 : th.thread_id = k
      · simp [h2]
      · rw [if_neg h2]
        exact hinv k hk

/-- C7 (counterexample): after `login` pre-populates the caches with one
pending thread, that chat id is present in both `cache.chats` and
`cache.pendingChats` — not in at most one of them. -/
theorem C7_pending_chat_in_both_caches :
    (lookupA stPrepop.chats "42").isSome = true ∧
    (lookupA stPrepop.pendingChats "42").isSome = true := by
  constructor <;> rfl

/-- C7 (amended): a cached pending chat lives in both caches: every id in
`pendingChats` is also in `chats` (preserved by the login pre-population);
`approveMessageRequest` clears the chat's pending flag, rewrites it into
`chats` and removes it from `pendingChats`; `declineMessageRequest` removes
it from `pendingChats` and leaves `chats` untouched. -/
theorem C7_amended_pending_chats :
    (∀ (threads : List ChatData) (st : ClientState),
      (∀ k, (lookupA st.pendingChats k).isSome = true →
        (lookupA st.chats k).isSome = true) →
      ∀ k, (lookupA (prepopulateChats st threads).pendingChats k).isSome = true →
        (lookupA (prepopulateChats st threads).chats k).isSome = true) ∧
    (∀ (st : ClientState) (tid : String) (c : Chat),
      tid.isEmpty = false → lookupA st.pendingChats tid = some c →
      approveMessageRequest true st (some tid) =
        ({ st with
            chats := setA st.chats tid { c with pending := false },
            pendingChats := eraseA st.pendingChats tid,
            emitted := st.emitted ++ [Action.messageRequestApproved tid] },
          true)) ∧
    (∀ (st : ClientState) (tid : String) (c : Chat),
      tid.isEmpty = false → lookupA st.pendingChats tid = some c →
      declineMessageRequest true st (some tid) =
        ({ st with
            pendingChats := eraseA st.pendingChats tid,
            emitted := st.emitted ++ [Action.messageRequestDeclined tid] },
          true)) := by
  refine ⟨prepopulateChats_subset, ?_, ?_⟩
  · intro st tid c h1 h2
    simp only [approveMessageRequest, strFalsy, h1, Bool.false_eq_true, if_false,
      Option.getD_some, h2, emitA]
    simp
  · intro st tid c h1 h2
    simp only [declineMessageRequest, strFalsy, h1, Bool.false_eq_true, if_false,
      Option.getD_some, h2, emitA]
    simp

theorem C7_amended_pending_chats_witness :
    ("42" : String).isEmpty = false ∧
    lookupA stPrepop.pendingChats "42" = some chat42 ∧
    approveMessageRequest true stPrepop (some "42") =
      ({ stPrepop with
          chats := setA stPrepop.chats "42" { chat42 with pending := false },
          pendingChats := eraseA stPrepop.pendingChats "42",
          emitted := stPrepop.emitted ++ [Action.messageRequestApproved "42"] },
        true) ∧
    declineMessageRequest true stPrepop (some "42") =
      ({ stPrepop with
          pendingChats := eraseA stPrepop.pendingChats "42",
          emitted := stPrepop.emitted ++ [Action.messageRequestDeclined "42"] },
        true) ∧
    (lookupA stPrepop.chats "42").isSome = true :=
  ⟨by decide, rfl,
    C7_amended_pending_chats.2.1 stPrepop "42" chat42 (by decide) rfl,
    C7_amended_pending_chats.2.2 stPrepop "42" chat42 (by decide) rfl,
    C7_amended_pending_chats.1 [pendingThread42] (initState 1000)
      (fun k hk => by simp [initState, lookupA] at hk) "42" rfl⟩

theorem lookupA_eq_none_of_not_mem {α : Type} (l : List (String × α)) (k : String)
    (h : k ∉ l.map Prod.fst) : lookupA l k = none := by
  induction l with
  | nil => rfl
  | cons hd tl ih =>
    obtain ⟨a, w⟩ := hd
    simp only [List.map_cons, List.mem_cons] at h
    push_neg at h
    simp only [lookupA]
    rw [if_neg (fun hc => h.1 hc.symm)]
    exact ih h.2

theorem setA_keys_of_isSome {α : Type} (l : List (String × α)) (k : String) (v : α)
    (h : (lookupA l k).isSome = true) :
    (setA l k v).map Prod.fst = l.map Prod.fst := by
  induction l with
  | nil => simp [lookupA] at h
  | cons hd tl ih =>
    obtain ⟨a, w⟩ := hd
    by_cases hak : a = k
    · simp [setA, hak]
    · simp only [lookupA, if_neg hak] at h
      simp [setA, hak, ih h]

theorem setA_keys_of_none {α : Type} (l : List (String × α)) (k : String) (v : α)
    (h : lookupA l k = none) :
    (setA l k v).map Prod.fst = l.map Prod.fst ++ [k] := by
  induction l with
  | nil => simp [setA]
  | cons hd tl ih =>
    obtain ⟨a, w⟩ := hd
    by_cases hak : a = k
    · subst hak
      simp [lookupA] at h
    · simp only [lookupA, if_neg hak] at h
      simp [setA, hak, ih h]

theorem lookupA_patchPayload (p base : Payload) (k : String)
    (hnd : (p.map Prod.fst).Nodup) :
    lookupA (patchPayload base p) k =
      match lookupA p k with
      | some v => some v
      | none => lookupA base k := by
  induction p generalizing base with
  | nil => simp [patchPayload, lookupA]
  | cons kv rest ih =>
    obtain ⟨a, v⟩ := kv
    simp only [List.map_cons, List.nodup_cons] at hnd
    have hstep : patchPayload base ((a, v) :: rest) =
        patchPayload (setA base a v) rest := rfl
    rw [hstep, ih _ hnd.2]
    simp only [lookupA]
    by_cases hak : a = k
    · subst hak
      rw [if_pos rfl, lookupA_eq_none_of_not_mem rest a hnd.1]
      rw [lookupA_setA, if_pos rfl]
    · rw [if_neg hak]
      cases hr : lookupA rest k
      · rw [lookupA_setA, if_neg hak]
      · rfl

theorem lookupA_foldl_patch (ps : List Payload) (base : Payload) (k : String)
    (hnd : ∀ q ∈ ps, (q.map Prod.fst).Nodup) :
    lookupA (ps.foldl patchPayload base) k =
      match mergedField ps k with
      | some v => some v
      | none => lookupA base k := by
  induction ps generalizing base with
  | nil => simp [mergedField]
  | cons p rest ih =>
    rw [List.foldl_cons, ih _ (fun q hq => hnd q (List.mem_cons_of_mem _ hq))]
    rw [lookupA_patchPayload p base k (hnd p (List.mem_cons_self _ _))]
    simp only [mergedField]
    cases hr : mergedField rest k <;> simp [hr]

theorem patchOrCreateUserRun_present (userID : String) (ps : List Payload)
    (st : UserCache) (u : UserEnt) (hpres : lookupA st.users userID = some u) :
    (∀ w ∈ (patchOrCreateUserRun st userID ps).1, w.ref = u.ref) ∧
    (patchOrCreateUserRun st userID ps).2.users.map Prod.fst =
      st.users.map Prod.fst ∧
    (patchOrCreateUserRun st userID ps).2.nextRef = st.nextRef ∧
    lookupA (patchOrCreateUserRun st userID ps).2.users userID =
      some { ref := u.ref, payload := ps.foldl patchPayload u.payload } := by
  induction ps generalizing st u with
  | nil =>
    refine ⟨by simp [patchOrCreateUserRun], rfl, rfl, ?_⟩
    exact hpres
  | cons p rest ih =>
    have hr : patchOrCreateUser st userID p =
        ({ u with payload := patchPayload u.payload p },
         { st with
           users :=
             setA st.users userID { u with payload := patchPayload u.payload p } }) := by
      simp [patchOrCreateUser, hpres]
    have hpres' : lookupA
        (setA st.users userID { u with payload := patchPayload u.payload p })
        userID =
        some { u with payload := patchPayload u.payload p } := by
      rw [lookupA_setA, if_pos rfl]
    obtain ⟨ih1, ih2, ih3, ih4⟩ := ih
      ({ st with
         users :=
           setA st.users userID { u with payload := patchPayload u.payload p } } :
        UserCache)
      { u with payload := patchPayload u.payload p } hpres'
    simp only [patchOrCreateUserRun, hr]
    refine ⟨?_, ?_, ih3, ?_⟩
    · intro w hw
      rcases List.mem_cons.mp hw with hw | hw
      · rw [hw]
      · exact ih1 w hw
    · rw [ih2]
      exact setA_keys_of_isSome st.users userID _ (by rw [hpres]; rfl)
    · rw [ih4]
      rfl

/-- C8: for every sequence of `_patchOrCreateUser` calls on one fresh id,
every call returns an entity with the one reference allocated at the first
call (no duplicate entity is ever created: exactly one cache entry and one
allocation for the id), and the cached entity's payload is the field-wise
merge of all applied payloads in call order — incoming fields overwrite,
absent fields are preserved. -/
theorem C8_upsert_same_entity_merged (st : UserCache) (userID : String)
    (p0 : Payload) (rest : List Payload)
    (hfresh : lookupA st.users userID = none)
    (hnd : ∀ q ∈ p0 :: rest, (q.map Prod.fst).Nodup) :
    (∀ w ∈ (patchOrCreateUserRun st userID (p0 :: rest)).1, w.ref = st.nextRef) ∧
    (patchOrCreateUserRun st userID (p0 :: rest)).2.users.map Prod.fst =
      st.users.map Prod.fst ++ [userID] ∧
    (patchOrCreateUserRun st userID (p0 :: rest)).2.nextRef = st.nextRef + 1 ∧
    (∃ u, lookupA (patchOrCreateUserRun st userID (p0 :: rest)).2.users userID =
        some u ∧ u.ref = st.nextRef ∧
      ∀ k, lookupA u.payload k = mergedField (p0 :: rest) k) := by
  have hr : patchOrCreateUser st userID p0 =
      ({ ref := st.nextRef, payload := patchPayload [] p0 },
       { users :=
           setA st.users userID { ref := st.nextRef, payload := patchPayload [] p0 },
         nextRef := st.nextRef + 1 }) := by
    simp [patchOrCreateUser, hfresh]
  have hpres1 : lookupA
      (setA st.users userID { ref := st.nextRef, payload := patchPayload [] p0 })
      userID =
      some { ref := st.nextRef, payload := patchPayload [] p0 } := by
    rw [lookupA_setA, if_pos rfl]
  obtain ⟨ih1, ih2, ih3, ih4⟩ := patchOrCreateUserRun_present userID rest
    ({ users :=
         setA st.users userID { ref := st.nextRef, payload := patchPayload [] p0 },
       nextRef := st.nextRef + 1 } : UserCache)
    { ref := st.nextRef, payload := patchPayload [] p0 } hpres1
  simp only [patchOrCreateUserRun, hr]
  refine ⟨?_, ?_, ih3, ?_⟩
  · intro w hw
    rcases List.mem_cons.mp hw with hw | hw
    · rw [hw]
    · exact ih1 w hw
  · rw [ih2]
    exact setA_keys_of_none st.users userID _ hfresh
  · refine ⟨{ ref := st.nextRef, payload := (p0 :: rest).foldl patchPayload [] },
      ?_, rfl, ?_⟩
    · rw [ih4]
      rfl
    · intro k
      rw [lookupA_foldl_patch _ _ _ hnd]
      cases hm : mergedField (p0 :: rest) k <;> rfl

theorem C8_upsert_same_entity_merged_witness :
    lookupA (⟨[], 0⟩ : UserCache).users "u" = none ∧
    (patchOrCreateUserRun ⟨[], 0⟩ "u"
      ([("a", "1"), ("b", "2")] :: [[("b", "3")]])).2.users.map Prod.fst =
      ([] : List (String × UserEnt)).map Prod.fst ++ ["u"] ∧
    (patchOrCreateUserRun ⟨[], 0⟩ "u"
      ([("a", "1"), ("b", "2")] :: [[("b", "3")]])).2.nextRef = 0 + 1 := by
  have h := C8_upsert_same_entity_merged ⟨[], 0⟩ "u" [("a", "1"), ("b", "2")]
    [[("b", "3")]] rfl (by decide)
  exact ⟨rfl, h.2.1, h.2.2.1⟩

end Insta
